import Mathlib

/-
Verification of the Perspectra document-rectification pipeline.

The development shallowly embeds the algorithmic core of the repository:
corner ordering (`order_points`), quadrilateral reduction (`find_corners`),
contour selection (`find_contours`), the rectifier's canvas computation
(`transformCanvas`), the GrabCut initialization rectangle (`grabcutRect`),
the pipeline orchestrator (`process_image`) and the two background-removal
entry points.  Pixel values and coordinates are exact rationals; OpenCV
primitives (contour tracing, polygon approximation, min-area rectangles,
Euclidean norms) enter as explicit parameters of the embedded functions,
so every theorem quantifies over their possible results.
-/

namespace Perspectra

/-- A 2D point with exact rational coordinates (models a numpy float point). -/
abbrev Point : Type := ℚ × ℚ

/-- A contour: an ordered sequence of 2D points (models a cv2 contour). -/
abbrev Contour : Type := List Point

/-- Python `int()` applied to a float: truncation toward zero. -/
def pyInt (q : ℚ) : ℤ := if 0 ≤ q then ⌊q⌋ else ⌈q⌉

/-- Order on points by x-coordinate; `np.argsort(pts[:, 0])` sorts by this key. -/
def xLe (p q : Point) : Prop := p.1 ≤ q.1

/-- Order on points by y-coordinate; `np.argsort(pts[:, 1])` sorts by this key. -/
def yLe (p q : Point) : Prop := p.2 ≤ q.2

/-- Strict order on points by x-coordinate. -/
def xLt (p q : Point) : Prop := p.1 < q.1

/-- Strict order on points by y-coordinate. -/
def yLt (p q : Point) : Prop := p.2 < q.2

instance : DecidableRel xLe := fun p q => inferInstanceAs (Decidable (p.1 ≤ q.1))

instance : DecidableRel yLe := fun p q => inferInstanceAs (Decidable (p.2 ≤ q.2))

instance : IsTotal Point xLe := ⟨fun p q => le_total p.1 q.1⟩

instance : IsTotal Point yLe := ⟨fun p q => le_total p.2 q.2⟩

instance : IsTrans Point xLe := ⟨fun _ _ _ h₁ h₂ => le_trans h₁ h₂⟩

instance : IsTrans Point yLe := ⟨fun _ _ _ h₁ h₂ => le_trans h₁ h₂⟩

instance : IsAntisymm Point xLt := ⟨fun _ _ h₁ h₂ => absurd h₂ (lt_asymm h₁)⟩

instance : IsAntisymm Point yLt := ⟨fun _ _ h₁ h₂ => absurd h₂ (lt_asymm h₁)⟩

/-- `np.argsort(pts[:, 0])` followed by indexing, modeled as a stable sort by the
x-key (numpy leaves the order of tied keys unspecified; the stable order is one
admissible resolution and the theorems with ties in scope assume distinct keys). -/
def xSorted (pts : List Point) : List Point := List.insertionSort xLe pts

/-- `np.argsort(pts[:, 1])` followed by indexing, modeled as a stable sort by the
y-key. -/
def ySorted (pts : List Point) : List Point := List.insertionSort yLe pts

/-- Exact sign test for the branch condition
`np.degrees(np.arctan2(dy, dx)) * -1 >= 0` of `order_points`:
`-atan2(dy, dx) ≥ 0` holds exactly when `dy < 0`, or `dy = 0` and `dx ≥ 0`
(`atan2` returns a value in `(0, π]` for `dy > 0`, in `[-π, 0)` for `dy < 0`,
`0` for `dy = 0, dx ≥ 0` and `π` for `dy = 0, dx < 0`; converting to degrees
and negating preserves the sign exactly, also in floating point). -/
def angleNonneg (dx dy : ℚ) : Bool := decide (dy < 0 ∨ (dy = 0 ∧ 0 ≤ dx))

/-- `PerspectiveAndContourAdapter.order_points` /
`PerspectiveCorrectionAdapter._order_points`: order four points as
[top-left, top-right, bottom-right, bottom-left].  The bottom-right corner is
the first point of the input (in input order) that `np.array_equal`s none of
the three already-assigned corners; `none` models the case where every input
point is equal to an assigned corner, in which `BR` stays Python `None` and
the final array construction fails. -/
def order_points (pts : List Point) : Option (Point × Point × Point × Point) :=
  let xs := xSorted pts
  let ys := ySorted pts
  let x0 := xs.getD 0 (0, 0)
  let x1 := xs.getD 1 (0, 0)
  let x3 := xs.getD 3 (0, 0)
  let y0 := ys.getD 0 (0, 0)
  let y3 := ys.getD 3 (0, 0)
  let dx := x1.1 - x0.1
  let dy := x1.2 - x0.2
  if angleNonneg dx dy then
    let BL := x0
    let TR := x3
    let TL := y0
    (pts.find? fun p => decide (p ≠ BL ∧ p ≠ TR ∧ p ≠ TL)).map fun BR => (TL, TR, BR, BL)
  else
    let BL := y3
    let TR := y0
    let TL := x0
    (pts.find? fun p => decide (p ≠ BL ∧ p ≠ TR ∧ p ≠ TL)).map fun BR => (TL, TR, BR, BL)

/-- The three corners `order_points` assigns directly before searching for the
remaining one, in the order of the code's `used_points = [BL, TR, TL]`. -/
def assignedTriple (pts : List Point) : Point × Point × Point :=
  let xs := xSorted pts
  let ys := ySorted pts
  let x0 := xs.getD 0 (0, 0)
  let x1 := xs.getD 1 (0, 0)
  let x3 := xs.getD 3 (0, 0)
  let y0 := ys.getD 0 (0, 0)
  let y3 := ys.getD 3 (0, 0)
  let dx := x1.1 - x0.1
  let dy := x1.2 - x0.2
  if angleNonneg dx dy then (x0, x3, y0) else (y3, y0, x0)

/-- Corner ordering exactly as the specification words it (§4.2 step 5): sort by
x and independently by y, branch on the sign of the inverted angle between the
two smallest-x points, assign three corners by extremal coordinates, and take
as bottom-right "the one input point not already assigned" — which is `none`
when that point is not unique. -/
def specOrderPoints (pts : List Point) : Option (Point × Point × Point × Point) :=
  let xs := xSorted pts
  let ys := ySorted pts
  let smallestX := xs.getD 0 (0, 0)
  let secondX := xs.getD 1 (0, 0)
  let largestX := xs.getD 3 (0, 0)
  let smallestY := ys.getD 0 (0, 0)
  let largestY := ys.getD 3 (0, 0)
  if angleNonneg (secondX.1 - smallestX.1) (secondX.2 - smallestX.2) then
    let BL := smallestX
    let TR := largestX
    let TL := smallestY
    match pts.filter fun p => decide (p ≠ BL ∧ p ≠ TR ∧ p ≠ TL) with
    | [BR] => some (TL, TR, BR, BL)
    | _ => none
  else
    let BL := largestY
    let TR := smallestY
    let TL := smallestX
    match pts.filter fun p => decide (p ≠ BL ∧ p ≠ TR ∧ p ≠ TL) with
    | [BR] => some (TL, TR, BR, BL)
    | _ => none

/-- The polygon-simplification tolerance factors `epsilons = [0.01, 0.02, 0.03, 0.05, 0.1]`
of `find_corners` / `_find_corners`, as exact rationals. -/
def epsilonFactors : List ℚ := [1/100, 2/100, 3/100, 5/100, 10/100]

/-- The `for epsilon_factor in epsilons` loop of `find_corners`:
`approx ε` stands for `cv2.approxPolyDP(contour, ε, True)` (an external
primitive, passed as a parameter), `perimeter` for `cv2.arcLength(contour, True)`,
and `box` for the fallback `cv2.boxPoints(cv2.minAreaRect(contour))`. -/
def findCornersLoop (approx : ℚ → List Point) (perimeter : ℚ) (box : List Point) :
    List ℚ → List Point
  | [] => box
  | f :: rest =>
    let a := approx (f * perimeter)
    if a.length = 4 then a
    else if a.length < 4 then box
    else findCornersLoop approx perimeter box rest

/-- `PerspectiveAndContourAdapter.find_corners` / `_find_corners`. -/
def find_corners (approx : ℚ → List Point) (perimeter : ℚ) (box : List Point) : List Point :=
  findCornersLoop approx perimeter box epsilonFactors

/-- `PerspectiveAndContourAdapter.find_contours` / `_find_contours` after the
`cv2.findContours` call: `contours` is the traced contour list (empty exactly
when the mask has no foreground region), `area` stands for `cv2.contourArea`.
Python `max(contours, key=cv2.contourArea)` keeps the first contour among
equal-area maxima. -/
def find_contours (area : Contour → ℚ) (contours : List Contour) : Except String Contour :=
  match contours with
  | [] => .error "No contours found in mask."
  | c :: rest => .ok (rest.foldl (fun best x => if area best < area x then x else best) c)

/-- `find_contour_corners` / `_find_contour_corners`: find contours, reduce the
largest one to four corners, order them.  A `ValueError` from `find_contours`
propagates unchanged (the `except` clause re-raises). -/
def find_contour_corners (area : Contour → ℚ) (perimeter : Contour → ℚ)
    (approx : Contour → ℚ → List Point) (box : Contour → List Point)
    (contours : List Contour) : Except String (Option (Point × Point × Point × Point)) :=
  match find_contours area contours with
  | .error e => .error e
  | .ok c => .ok (order_points (find_corners (approx c) (perimeter c) (box c)))

/-- The output-canvas computation of `_apply_perspective_transform` /
`perspective_transform` (lines computing `final_width`, `final_height`,
`width_padding`, `height_padding`, `padded_width`, `padded_height`).
The four arguments are the `np.linalg.norm` edge lengths of the ordered
corners (top, right, bottom, left); `pad` is `config.padding_ratio`.
Returns `(padded_width, padded_height)`, the exact size in pixels of the
canvas handed to `cv2.warpPerspective`. -/
def transformCanvas (top_width right_height bottom_width left_height pad : ℚ) : ℤ × ℤ :=
  let final_width := pyInt ((top_width + bottom_width) / 2)
  let final_height := pyInt ((left_height + right_height) / 2)
  let width_padding := pyInt ((final_width : ℚ) * pad)
  let height_padding := pyInt ((final_height : ℚ) * pad)
  (final_width + 2 * width_padding, final_height + 2 * height_padding)

/-- The canvas computation exactly as the claim words it: target dimensions are
the (exact) averages of opposite edge lengths and the paddings are obtained
with `round`, not with Python `int` truncation. -/
def specCanvasRound (top_width right_height bottom_width left_height pad : ℚ) : ℚ × ℚ :=
  let target_width := (top_width + bottom_width) / 2
  let target_height := (left_height + right_height) / 2
  let padding_x := round (target_width * pad)
  let padding_y := round (target_height * pad)
  (target_width + 2 * (padding_x : ℚ), target_height + 2 * (padding_y : ℚ))

/-- The canvas computation as the code actually behaves on nonnegative inputs:
integer target dimensions by flooring the averages, paddings by flooring
`target × pad`. -/
def specCanvasFloor (top_width right_height bottom_width left_height pad : ℚ) : ℤ × ℤ :=
  let target_width := ⌊(top_width + bottom_width) / 2⌋
  let target_height := ⌊(left_height + right_height) / 2⌋
  let padding_x := ⌊(target_width : ℚ) * pad⌋
  let padding_y := ⌊(target_height : ℚ) * pad⌋
  (target_width + 2 * padding_x, target_height + 2 * padding_y)

/-- The GrabCut initialization rectangle of
`UltraFastBackgroundRemovalAdapter._grabcut_removal`:
`margin = int(min(width, height) * 0.1)` and
`rect = (margin, margin, width - 2*margin, height - 2*margin)`
(`0.1` is exact here for every image dimension small enough that the binary
double of `min*0.1` truncates to `min/10`, which holds for all realistic sizes
and in particular for 800 and 600). -/
def grabcutRect (width height : ℕ) : ℤ × ℤ × ℤ × ℤ :=
  let margin := pyInt ((min width height : ℕ) * (1/10 : ℚ))
  (margin, margin, (width : ℤ) - 2 * margin, (height : ℤ) - 2 * margin)

/-- `PerspectraProcessor.process_image`: run background removal, feed the mask
to perspective correction, and wrap the outcome.  The two stages are passed as
`Except`-valued parameters (`bg` is `bg_remover.remove_background image_bytes`,
`corr m` is `perspective_corrector.correct_perspective m image_bytes`, an
`.error` value standing for a raised exception with that message).  Wall-clock
time is abstracted by the `elapsed` parameter; the returned quadruple is
`(success, error_message, result_image, duration)`. -/
def process_image {μ ι : Type} (bg : Except String μ) (corr : μ → Except String ι)
    (elapsed : ℚ) : Bool × String × Option ι × ℚ :=
  match bg with
  | .error e => (false, e, none, elapsed)
  | .ok mask =>
    match corr mask with
    | .error e => (false, e, none, elapsed)
    | .ok img => (true, "", some img, elapsed)

/-- `OptimizedBackgroundRemovalAdapter.remove_background_optimized`:
`decode` is `_load_and_preprocess_image` (its failure is an exception caught by
the enclosing `except`), `session` the lazily-initialized ONNX session (`none`
when the model file is absent), `inference` is `_run_onnx_inference`,
`post` is `_postprocess_result`, and `fallback` the result of
`_fallback_rembg_processing image_bytes`.  Every failure path inside the `try`
block falls back. -/
def remove_background_optimized {σ τ μ : Type} (decode : Except String τ)
    (session : Option σ) (inference : σ → τ → Except String μ) (post : τ → μ → μ)
    (fallback : Except String μ) : Except String μ :=
  match decode with
  | .error _ => fallback
  | .ok t =>
    match session with
    | none => fallback
    | some s =>
      match inference s t with
      | .error _ => fallback
      | .ok mask => .ok (post t mask)

/-- The method dispatch of `UltraFastBackgroundRemovalAdapter.remove_background`:
`if self.method == 'grabcut' ... elif 'watershed' ... elif 'threshold' ... else`
— both the `'threshold'` branch and the final `else` call `_threshold_removal`. -/
def ufDispatch {α : Type} (method : String) (grabcut watershed threshold : α → Except String α)
    (img : α) : Except String α :=
  if method = "grabcut" then grabcut img
  else if method = "watershed" then watershed img
  else if method = "threshold" then threshold img
  else threshold img

/-- `UltraFastBackgroundRemovalAdapter.remove_background`: decode the bytes,
dispatch on `self.method`; any exception from the selected method is caught and
the freshly re-decoded original image is returned in its place.  When the bytes
themselves do not decode, the re-decode inside the `except` clause raises the
same error again, so it propagates. -/
def remove_background {α : Type} (decode : Except String α) (method : String)
    (grabcut watershed threshold : α → Except String α) : Except String α :=
  match decode with
  | .error e => .error e
  | .ok img =>
    match ufDispatch method grabcut watershed threshold img with
    | .ok r => .ok r
    | .error _ => .ok img

/-! ### Helper lemmas -/

/-- `find?` returns the head of `filter`. -/
theorem find?_eq_head?_filter {α : Type} (p : α → Bool) (l : List α) :
    l.find? p = (l.filter p).head? := by
  induction l with
  | nil => rfl
  | cons a l ih =>
    cases h : p a with
    | true => rw [List.find?_cons_of_pos _ h, List.filter_cons_of_pos h, List.head?_cons]
    | false =>
      rw [List.find?_cons_of_neg _ (by simp [h]), List.filter_cons_of_neg (by simp [h]), ih]

/-- Indexing into a stable sort of a list yields a member of the list. -/
theorem getD_insertionSort_mem (r : Point → Point → Prop) [DecidableRel r]
    (l : List Point) (i : ℕ) (hi : i < l.length) (d : Point) :
    (List.insertionSort r l).getD i d ∈ l := by
  have hlen : i < (List.insertionSort r l).length := by
    rw [List.length_insertionSort]; exact hi
  rw [List.getD_eq_getElem _ _ hlen]
  exact (List.mem_insertionSort r).mp (List.getElem_mem hlen)

/-- The three directly-assigned corners are input points. -/
theorem assignedTriple_mem (pts : List Point) (h : pts.length = 4) :
    (assignedTriple pts).1 ∈ pts ∧ (assignedTriple pts).2.1 ∈ pts ∧
      (assignedTriple pts).2.2 ∈ pts := by
  have hx : ∀ i : ℕ, i < 4 → (xSorted pts).getD i (0, 0) ∈ pts := fun i hi =>
    getD_insertionSort_mem xLe pts i (h ▸ hi) (0, 0)
  have hy : ∀ i : ℕ, i < 4 → (ySorted pts).getD i (0, 0) ∈ pts := fun i hi =>
    getD_insertionSort_mem yLe pts i (h ▸ hi) (0, 0)
  unfold assignedTriple
  dsimp only
  split
  · exact ⟨hx 0 (by omega), hx 3 (by omega), hy 0 (by omega)⟩
  · exact ⟨hy 3 (by omega), hy 0 (by omega), hx 0 (by omega)⟩

/-- `order_points` in terms of the assigned triple: the bottom-right corner is
the first input point distinct from all three assigned corners. -/
theorem order_points_eq (pts : List Point) :
    order_points pts =
      (pts.find? fun p => decide (p ≠ (assignedTriple pts).1 ∧
          p ≠ (assignedTriple pts).2.1 ∧ p ≠ (assignedTriple pts).2.2)).map
        fun BR => ((assignedTriple pts).2.2, (assignedTriple pts).2.1, BR,
          (assignedTriple pts).1) := by
  unfold order_points assignedTriple
  dsimp only
  split <;> rfl

/-- `specOrderPoints` in terms of the assigned triple: the bottom-right corner
is the unique input point distinct from all three assigned corners, if any. -/
theorem specOrderPoints_eq (pts : List Point) :
    specOrderPoints pts =
      (match pts.filter fun p => decide (p ≠ (assignedTriple pts).1 ∧
          p ≠ (assignedTriple pts).2.1 ∧ p ≠ (assignedTriple pts).2.2) with
        | [BR] => some ((assignedTriple pts).2.2, (assignedTriple pts).2.1, BR,
            (assignedTriple pts).1)
        | _ => none) := by
  unfold specOrderPoints assignedTriple
  dsimp only
  split <;> rfl

/-- Filtering four pairwise-distinct points by avoidance of three
pairwise-distinct members leaves exactly one point. -/
theorem filter_unassigned (a b c d u v w : Point)
    (hab : a ≠ b) (hac : a ≠ c) (had : a ≠ d) (hbc : b ≠ c) (hbd : b ≠ d) (hcd : c ≠ d)
    (huv : u ≠ v) (huw : u ≠ w) (hvw : v ≠ w)
    (hu : u = a ∨ u = b ∨ u = c ∨ u = d)
    (hv : v = a ∨ v = b ∨ v = c ∨ v = d)
    (hw : w = a ∨ w = b ∨ w = c ∨ w = d) :
    ∃ e, [a, b, c, d].filter (fun p => decide (p ≠ u ∧ p ≠ v ∧ p ≠ w)) = [e] := by
  rcases hu with rfl | rfl | rfl | rfl <;> rcases hv with rfl | rfl | rfl | rfl <;>
    rcases hw with rfl | rfl | rfl | rfl <;> simp_all [ne_comm]

/-! ### C1 -/

/-- C1 counterexample: for the four distinct input points
(0,0), (3,1), (1,2), (2,3) the angle is negative and the code assigns
top-left = top-right = (0,0), so two input points remain unassigned and
"the one input point not already assigned" does not exist; the code silently
picks the first remaining point (3,1) and returns a corner set in which (0,0)
appears twice, which is not the claimed assignment. -/
theorem c1_counterexample :
    ([((0:ℚ), (0:ℚ)), (3, 1), (1, 2), (2, 3)] : List Point).Nodup ∧
    order_points [((0:ℚ), (0:ℚ)), (3, 1), (1, 2), (2, 3)] ≠
      specOrderPoints [((0:ℚ), (0:ℚ)), (3, 1), (1, 2), (2, 3)] := by
  with_unfolding_all decide

/-- C1 (amended): for four pairwise-distinct points whose three directly
assigned corners (bottom-left, top-right, top-left per the angle branch) are
themselves pairwise distinct, `order_points` returns exactly the assignment the
specification describes, the bottom-right corner being the unique input point
not already assigned. -/
theorem c1_order_points_matches_spec (a b c d : Point)
    (hab : a ≠ b) (hac : a ≠ c) (had : a ≠ d)
    (hbc : b ≠ c) (hbd : b ≠ d) (hcd : c ≠ d)
    (h₁ : (assignedTriple [a, b, c, d]).1 ≠ (assignedTriple [a, b, c, d]).2.1)
    (h₂ : (assignedTriple [a, b, c, d]).1 ≠ (assignedTriple [a, b, c, d]).2.2)
    (h₃ : (assignedTriple [a, b, c, d]).2.1 ≠ (assignedTriple [a, b, c, d]).2.2) :
    order_points [a, b, c, d] = specOrderPoints [a, b, c, d] ∧
      (specOrderPoints [a, b, c, d]).isSome = true := by
  obtain ⟨hu, hv, hw⟩ := assignedTriple_mem [a, b, c, d] rfl
  obtain ⟨e, he⟩ := filter_unassigned a b c d _ _ _ hab hac had hbc hbd hcd h₁ h₂ h₃
    (by simpa using hu) (by simpa using hv) (by simpa using hw)
  rw [order_points_eq, specOrderPoints_eq, find?_eq_head?_filter, he]
  exact ⟨rfl, rfl⟩

/-- C1 witness: the rotated square (0,2), (3,0), (5,3), (2,5) satisfies all
hypotheses and is ordered exactly as the specification describes. -/
theorem c1_witness :
    order_points [((0:ℚ), (2:ℚ)), (3, 0), (5, 3), (2, 5)] =
      specOrderPoints [((0:ℚ), (2:ℚ)), (3, 0), (5, 3), (2, 5)] ∧
    (specOrderPoints [((0:ℚ), (2:ℚ)), (3, 0), (5, 3), (2, 5)]).isSome = true :=
  c1_order_points_matches_spec (0, 2) (3, 0) (5, 3) (2, 5)
    (by with_unfolding_all decide) (by with_unfolding_all decide)
    (by with_unfolding_all decide) (by with_unfolding_all decide)
    (by with_unfolding_all decide) (by with_unfolding_all decide)
    (by with_unfolding_all decide) (by with_unfolding_all decide)
    (by with_unfolding_all decide)

/-! ### C8 -/

/-- Two permuted lists with pairwise-distinct x-keys have the same x-sort. -/
theorem xSorted_eq_of_perm {l₁ l₂ : List Point} (hp : l₁.Perm l₂)
    (h : l₂.Pairwise fun p q => p.1 ≠ q.1) : xSorted l₁ = xSorted l₂ := by
  have hs₁ := List.sorted_insertionSort xLe l₁
  have hs₂ := List.sorted_insertionSort xLe l₂
  have hperm : (List.insertionSort xLe l₁).Perm (List.insertionSort xLe l₂) :=
    (List.perm_insertionSort xLe l₁).trans (hp.trans (List.perm_insertionSort xLe l₂).symm)
  have h₂ : (List.insertionSort xLe l₂).Pairwise (fun p q => p.1 ≠ q.1) :=
    (List.Perm.pairwise_iff (fun hh => hh.symm) (List.perm_insertionSort xLe l₂)).mpr h
  have h₁ : (List.insertionSort xLe l₁).Pairwise (fun p q => p.1 ≠ q.1) :=
    (List.Perm.pairwise_iff (fun hh => hh.symm) hperm).mpr h₂
  have hlt₁ : List.Sorted xLt (List.insertionSort xLe l₁) :=
    (List.Pairwise.and hs₁ h₁).imp fun hh => lt_of_le_of_ne hh.1 hh.2
  have hlt₂ : List.Sorted xLt (List.insertionSort xLe l₂) :=
    (List.Pairwise.and hs₂ h₂).imp fun hh => lt_of_le_of_ne hh.1 hh.2
  exact List.eq_of_perm_of_sorted hperm hlt₁ hlt₂

/-- Two permuted lists with pairwise-distinct y-keys have the same y-sort. -/
theorem ySorted_eq_of_perm {l₁ l₂ : List Point} (hp : l₁.Perm l₂)
    (h : l₂.Pairwise fun p q => p.2 ≠ q.2) : ySorted l₁ = ySorted l₂ := by
  have hs₁ := List.sorted_insertionSort yLe l₁
  have hs₂ := List.sorted_insertionSort yLe l₂
  have hperm : (List.insertionSort yLe l₁).Perm (List.insertionSort yLe l₂) :=
    (List.perm_insertionSort yLe l₁).trans (hp.trans (List.perm_insertionSort yLe l₂).symm)
  have h₂ : (List.insertionSort yLe l₂).Pairwise (fun p q => p.2 ≠ q.2) :=
    (List.Perm.pairwise_iff (fun hh => hh.symm) (List.perm_insertionSort yLe l₂)).mpr h
  have h₁ : (List.insertionSort yLe l₁).Pairwise (fun p q => p.2 ≠ q.2) :=
    (List.Perm.pairwise_iff (fun hh => hh.symm) hperm).mpr h₂
  have hlt₁ : List.Sorted yLt (List.insertionSort yLe l₁) :=
    (List.Pairwise.and hs₁ h₁).imp fun hh => lt_of_le_of_ne hh.1 hh.2
  have hlt₂ : List.Sorted yLt (List.insertionSort yLe l₂) :=
    (List.Pairwise.and hs₂ h₂).imp fun hh => lt_of_le_of_ne hh.1 hh.2
  exact List.eq_of_perm_of_sorted hperm hlt₁ hlt₂

/-- The assigned triple only depends on the two sorted lists. -/
theorem assignedTriple_congr {l₁ l₂ : List Point} (hx : xSorted l₁ = xSorted l₂)
    (hy : ySorted l₁ = ySorted l₂) : assignedTriple l₁ = assignedTriple l₂ := by
  unfold assignedTriple
  rw [hx, hy]

/-- C8 counterexample: the four distinct points (0,0), (3,1), (1,2), (2,3)
(with pairwise-distinct x and y coordinates), rotated by two positions,
receive a different [TL, TR, BR, BL] assignment than in the original order:
the assigned triple collapses (TL = TR), and the first unassigned point that
becomes bottom-right depends on the input order. -/
theorem c8_counterexample :
    ([((0:ℚ), (0:ℚ)), (3, 1), (1, 2), (2, 3)] : List Point).Nodup ∧
    order_points (([((0:ℚ), (0:ℚ)), (3, 1), (1, 2), (2, 3)] : List Point).rotate 2) ≠
      order_points [((0:ℚ), (0:ℚ)), (3, 1), (1, 2), (2, 3)] := by
  with_unfolding_all decide

/-- C8 (amended): corner ordering is invariant under cyclic rotation of the
input order for every quadrilateral whose points have pairwise-distinct
x-coordinates and pairwise-distinct y-coordinates (so the two sorts are
order-independent) and whose three directly-assigned corners are pairwise
distinct (so the bottom-right corner is the unique remaining point). -/
theorem c8_order_points_rotate (a b c d : Point) (k : ℕ)
    (hx : ([a, b, c, d] : List Point).Pairwise fun p q => p.1 ≠ q.1)
    (hy : ([a, b, c, d] : List Point).Pairwise fun p q => p.2 ≠ q.2)
    (h₁ : (assignedTriple [a, b, c, d]).1 ≠ (assignedTriple [a, b, c, d]).2.1)
    (h₂ : (assignedTriple [a, b, c, d]).1 ≠ (assignedTriple [a, b, c, d]).2.2)
    (h₃ : (assignedTriple [a, b, c, d]).2.1 ≠ (assignedTriple [a, b, c, d]).2.2) :
    order_points (([a, b, c, d] : List Point).rotate k) = order_points [a, b, c, d] := by
  have hne : ([a, b, c, d] : List Point).Pairwise (· ≠ ·) :=
    hx.imp fun hpq he => hpq (by rw [he])
  have hab : a ≠ b := (List.pairwise_cons.mp hne).1 b (by simp)
  have hac : a ≠ c := (List.pairwise_cons.mp hne).1 c (by simp)
  have had : a ≠ d := (List.pairwise_cons.mp hne).1 d (by simp)
  have hbc : b ≠ c := (List.pairwise_cons.mp (List.pairwise_cons.mp hne).2).1 c (by simp)
  have hbd : b ≠ d := (List.pairwise_cons.mp (List.pairwise_cons.mp hne).2).1 d (by simp)
  have hcd : c ≠ d :=
    (List.pairwise_cons.mp (List.pairwise_cons.mp (List.pairwise_cons.mp hne).2).2).1 d (by simp)
  have hp : (([a, b, c, d] : List Point).rotate k).Perm [a, b, c, d] :=
    List.rotate_perm _ k
  have hxs : xSorted (([a, b, c, d] : List Point).rotate k) = xSorted [a, b, c, d] :=
    xSorted_eq_of_perm hp hx
  have hys : ySorted (([a, b, c, d] : List Point).rotate k) = ySorted [a, b, c, d] :=
    ySorted_eq_of_perm hp hy
  have ht : assignedTriple (([a, b, c, d] : List Point).rotate k) =
      assignedTriple [a, b, c, d] := assignedTriple_congr hxs hys
  obtain ⟨hu, hv, hw⟩ := assignedTriple_mem [a, b, c, d] rfl
  obtain ⟨e, he⟩ := filter_unassigned a b c d _ _ _ hab hac had hbc hbd hcd h₁ h₂ h₃
    (by simpa using hu) (by simpa using hv) (by simpa using hw)
  have her : (([a, b, c, d] : List Point).rotate k).filter
      (fun p => decide (p ≠ (assignedTriple [a, b, c, d]).1 ∧
        p ≠ (assignedTriple [a, b, c, d]).2.1 ∧
        p ≠ (assignedTriple [a, b, c, d]).2.2)) = [e] :=
    List.perm_singleton.mp ((List.Perm.filter _ hp).trans (he ▸ List.Perm.refl _))
  rw [order_points_eq, order_points_eq, ht, find?_eq_head?_filter,
    find?_eq_head?_filter, he, her]

/-- C8 witness: rotating the rotated square (0,2), (3,0), (5,3), (2,5) by one
position yields the identical corner assignment. -/
theorem c8_witness :
    order_points (([((0:ℚ), (2:ℚ)), (3, 0), (5, 3), (2, 5)] : List Point).rotate 1) =
      order_points [((0:ℚ), (2:ℚ)), (3, 0), (5, 3), (2, 5)] :=
  c8_order_points_rotate (0, 2) (3, 0) (5, 3) (2, 5) 1
    (by with_unfolding_all decide) (by with_unfolding_all decide)
    (by with_unfolding_all decide) (by with_unfolding_all decide)
    (by with_unfolding_all decide)

/-! ### C3 -/

/-- The tolerance loop returns the value of the first approximation with at
most four points — returning it when it has exactly four, falling back to the
min-area box when it has fewer — and falls back when every approximation has
more than four points. -/
theorem findCornersLoop_eq (approx : ℚ → List Point) (perimeter : ℚ) (box : List Point)
    (fs : List ℚ) :
    findCornersLoop approx perimeter box fs =
      (match (fs.map fun f => approx (f * perimeter)).find?
          (fun a => decide (a.length ≤ 4)) with
        | some a => if a.length = 4 then a else box
        | none => box) := by
  induction fs with
  | nil => rfl
  | cons f rest ih =>
    simp only [findCornersLoop, List.map_cons]
    rcases Nat.lt_trichotomy (approx (f * perimeter)).length 4 with h | h | h
    · rw [if_neg (by omega), if_pos h,
        List.find?_cons_of_pos _ (by simp only [decide_eq_true_eq]; omega)]
      dsimp only
      rw [if_neg (by omega)]
    · rw [if_pos h, List.find?_cons_of_pos _ (by simp only [decide_eq_true_eq]; omega)]
      dsimp only
      rw [if_pos h]
    · rw [if_neg (by omega), if_neg (by omega),
        List.find?_cons_of_neg _ (by simp only [decide_eq_true_eq]; omega)]
      exact ih

/-- C3: `find_corners` tries the tolerance factors 1%, 2%, 3%, 5%, 10% of the
perimeter in this order; it returns the first approximation with exactly four
points, abandons the loop at the first approximation with at most four points
(so an approximation with fewer than four points immediately forces the
fallback, higher tolerances untried), and returns the min-area-rectangle box
when no approximation has exactly four points. -/
theorem c3_find_corners (approx : ℚ → List Point) (perimeter : ℚ) (box : List Point) :
    epsilonFactors = [1/100, 2/100, 3/100, 5/100, 10/100] ∧
    find_corners approx perimeter box =
      (match (epsilonFactors.map fun f => approx (f * perimeter)).find?
          (fun a => decide (a.length ≤ 4)) with
        | some a => if a.length = 4 then a else box
        | none => box) :=
  ⟨rfl, findCornersLoop_eq approx perimeter box epsilonFactors⟩

/-! ### C5 -/

/-- C5: when the mask contains no foreground region, `cv2.findContours` traces
no contours, and corner extraction fails with the no-contour error
(`ValueError`, the library's `NoContourError`), producing no corner set. -/
theorem c5_no_contours (area : Contour → ℚ) (perimeter : Contour → ℚ)
    (approx : Contour → ℚ → List Point) (box : Contour → List Point) :
    find_contour_corners area perimeter approx box [] =
      .error "No contours found in mask." := rfl

/-! ### C2 -/

/-- C2: `process_image` returns a success tag, a message, an optional result
image and the elapsed time; the image is present exactly when the tag is
success, and on any stage error the tag is failure, the image absent and the
message the (non-empty) stage error message. -/
theorem c2_process_image {μ ι : Type} (bg : Except String μ) (corr : μ → Except String ι)
    (elapsed : ℚ)
    (hbg : ∀ e, bg = .error e → e ≠ "")
    (hcorr : ∀ m e, corr m = .error e → e ≠ "") :
    ((process_image bg corr elapsed).2.2.1.isSome ↔ (process_image bg corr elapsed).1 = true) ∧
    ((process_image bg corr elapsed).1 = false →
      (process_image bg corr elapsed).2.1 ≠ "" ∧
        (process_image bg corr elapsed).2.2.1 = none) ∧
    (process_image bg corr elapsed).2.2.2 = elapsed := by
  cases bg with
  | error e => exact ⟨by simp [process_image], fun _ => ⟨hbg e rfl, rfl⟩, rfl⟩
  | ok m =>
    cases h : corr m with
    | error e =>
      have hp : process_image (Except.ok m) corr elapsed = (false, e, none, elapsed) := by
        simp [process_image, h]
      rw [hp]
      exact ⟨by simp, fun _ => ⟨hcorr m e h, rfl⟩, rfl⟩
    | ok img =>
      have hp : process_image (Except.ok m) corr elapsed = (true, "", some img, elapsed) := by
        simp [process_image, h]
      rw [hp]
      exact ⟨by simp, by simp, rfl⟩

/-- C2 witness: a failing background-removal stage with a non-empty message. -/
theorem c2_witness :
    ((process_image (Except.error "decode failed") (fun m : ℕ => Except.ok (m + 1))
        1).2.2.1.isSome ↔
      (process_image (Except.error "decode failed") (fun m : ℕ => Except.ok (m + 1))
        1).1 = true) ∧
    ((process_image (Except.error "decode failed") (fun m : ℕ => Except.ok (m + 1))
        1).1 = false →
      (process_image (Except.error "decode failed") (fun m : ℕ => Except.ok (m + 1))
        1).2.1 ≠ "" ∧
      (process_image (Except.error "decode failed") (fun m : ℕ => Except.ok (m + 1))
        1).2.2.1 = none) ∧
    (process_image (Except.error "decode failed") (fun m : ℕ => Except.ok (m + 1))
        1).2.2.2 = 1 :=
  c2_process_image (Except.error "decode failed") (fun m : ℕ => Except.ok (m + 1)) 1
    (fun e he => by cases he; decide) (fun m e he => Except.noConfusion he)

/-! ### C4 -/

/-- On nonnegative edge lengths and padding ratio, the canvas computation
floors the averaged target dimensions and floors (never rounds) the paddings. -/
theorem transformCanvas_eq_floor (tw rh bw lh pad : ℚ) (htw : 0 ≤ tw) (hrh : 0 ≤ rh)
    (hbw : 0 ≤ bw) (hlh : 0 ≤ lh) (hpad : 0 ≤ pad) :
    transformCanvas tw rh bw lh pad = specCanvasFloor tw rh bw lh pad := by
  have h₁ : (0:ℚ) ≤ (tw + bw) / 2 := by positivity
  have h₂ : (0:ℚ) ≤ (lh + rh) / 2 := by positivity
  have hw0 : (0:ℚ) ≤ (⌊(tw + bw) / 2⌋ : ℚ) := by exact_mod_cast Int.floor_nonneg.mpr h₁
  have hh0 : (0:ℚ) ≤ (⌊(lh + rh) / 2⌋ : ℚ) := by exact_mod_cast Int.floor_nonneg.mpr h₂
  have e₁ : pyInt ((tw + bw) / 2) = ⌊(tw + bw) / 2⌋ := by unfold pyInt; exact if_pos h₁
  have e₂ : pyInt ((lh + rh) / 2) = ⌊(lh + rh) / 2⌋ := by unfold pyInt; exact if_pos h₂
  have e₃ : pyInt ((⌊(tw + bw) / 2⌋ : ℚ) * pad) = ⌊(⌊(tw + bw) / 2⌋ : ℚ) * pad⌋ := by
    unfold pyInt; exact if_pos (mul_nonneg hw0 hpad)
  have e₄ : pyInt ((⌊(lh + rh) / 2⌋ : ℚ) * pad) = ⌊(⌊(lh + rh) / 2⌋ : ℚ) * pad⌋ := by
    unfold pyInt; exact if_pos (mul_nonneg hh0 hpad)
  simp only [transformCanvas, specCanvasFloor, e₁, e₂, e₃, e₄]

/-- C4 counterexample: for the ordered corners (0,0), (12,0), (12,14), (0,14)
— edge lengths top = bottom = 12, right = left = 14 — and padding ratio 1/20
(the library default 0.05), the code computes `width_padding` as
`int(12 × 0.05) = int(0.6) = 0` and produces a 12-pixel-wide canvas, while the
claimed `round(12 × 0.05) = 1` would produce a 14-pixel-wide canvas. -/
theorem c4_counterexample :
    (0:ℚ) ≤ 1/20 ∧
    ((transformCanvas 12 14 12 14 (1/20)).1 : ℚ) ≠ (specCanvasRound 12 14 12 14 (1/20)).1 := by
  with_unfolding_all decide

/-- C4 (amended): for nonnegative edge lengths and padding ratio, target
dimensions are the `int`-truncated (floored) averages of opposite edge
lengths, the paddings are `int(target × padding_ratio)` — floored, not
rounded — and the output canvas is exactly
`(target_width + 2·padding_x) × (target_height + 2·padding_y)` pixels. -/
theorem c4_transform_canvas (tw rh bw lh pad : ℚ) (htw : 0 ≤ tw) (hrh : 0 ≤ rh)
    (hbw : 0 ≤ bw) (hlh : 0 ≤ lh) (hpad : 0 ≤ pad) :
    transformCanvas tw rh bw lh pad = specCanvasFloor tw rh bw lh pad :=
  transformCanvas_eq_floor tw rh bw lh pad htw hrh hbw hlh hpad

/-- C4 witness: edge lengths 3, 4, 6, 5 with padding ratio 1/10. -/
theorem c4_witness :
    transformCanvas 3 4 6 5 (1/10) = specCanvasFloor 3 4 6 5 (1/10) :=
  c4_transform_canvas 3 4 6 5 (1/10) (by norm_num) (by norm_num) (by norm_num)
    (by norm_num) (by norm_num)

/-! ### C9 -/

/-- C9 counterexample: with all edge lengths 10, increasing the padding ratio
from 0 to 1/100 leaves both output dimensions unchanged (both paddings floor
to 0), refuting strict monotonicity. -/
theorem c9_counterexample :
    (0:ℚ) ≤ 0 ∧ (0:ℚ) < 1/100 ∧
    transformCanvas 10 10 10 10 (1/100) = transformCanvas 10 10 10 10 0 := by
  with_unfolding_all decide

/-- C9 (amended): for a fixed corner set (nonnegative edge lengths),
increasing the padding ratio never decreases either output dimension; strict
growth happens only when the floored padding itself increases. -/
theorem c9_padding_monotone (tw rh bw lh p₁ p₂ : ℚ) (htw : 0 ≤ tw) (hrh : 0 ≤ rh)
    (hbw : 0 ≤ bw) (hlh : 0 ≤ lh) (h₁ : 0 ≤ p₁) (h₁₂ : p₁ ≤ p₂) :
    (transformCanvas tw rh bw lh p₁).1 ≤ (transformCanvas tw rh bw lh p₂).1 ∧
    (transformCanvas tw rh bw lh p₁).2 ≤ (transformCanvas tw rh bw lh p₂).2 := by
  have h₂ : (0:ℚ) ≤ p₂ := le_trans h₁ h₁₂
  rw [transformCanvas_eq_floor tw rh bw lh p₁ htw hrh hbw hlh h₁,
    transformCanvas_eq_floor tw rh bw lh p₂ htw hrh hbw hlh h₂]
  have hw0 : (0:ℚ) ≤ (⌊(tw + bw) / 2⌋ : ℚ) := by
    exact_mod_cast Int.floor_nonneg.mpr (by positivity : (0:ℚ) ≤ (tw + bw) / 2)
  have hh0 : (0:ℚ) ≤ (⌊(lh + rh) / 2⌋ : ℚ) := by
    exact_mod_cast Int.floor_nonneg.mpr (by positivity : (0:ℚ) ≤ (lh + rh) / 2)
  have hx : ⌊(⌊(tw + bw) / 2⌋ : ℚ) * p₁⌋ ≤ ⌊(⌊(tw + bw) / 2⌋ : ℚ) * p₂⌋ :=
    Int.floor_le_floor (mul_le_mul_of_nonneg_left h₁₂ hw0)
  have hy : ⌊(⌊(lh + rh) / 2⌋ : ℚ) * p₁⌋ ≤ ⌊(⌊(lh + rh) / 2⌋ : ℚ) * p₂⌋ :=
    Int.floor_le_floor (mul_le_mul_of_nonneg_left h₁₂ hh0)
  simp only [specCanvasFloor]
  omega

/-- C9 witness: edge lengths 10 with padding ratios 0 and 1. -/
theorem c9_witness :
    (transformCanvas 10 10 10 10 0).1 ≤ (transformCanvas 10 10 10 10 1).1 ∧
    (transformCanvas 10 10 10 10 0).2 ≤ (transformCanvas 10 10 10 10 1).2 :=
  c9_padding_monotone 10 10 10 10 0 1 (by norm_num) (by norm_num) (by norm_num)
    (by norm_num) (by norm_num) (by norm_num)

/-! ### C7 -/

/-- C7 counterexample: on an 800×600 image the GrabCut margin is
`int(min(800, 600) × 0.1) = 60` on both axes, so the initialization rectangle
is not the claimed (80, 60, 640, 480). -/
theorem c7_counterexample : grabcutRect 800 600 ≠ (80, 60, 640, 480) := by
  with_unfolding_all decide

/-- C7 (amended): on an 800×600 image the GrabCut strategy with the default
margin (10% of the minimum dimension, applied to both axes) initializes with
the rectangle (60, 60, 680, 480). -/
theorem c7_grabcut_rect : grabcutRect 800 600 = (60, 60, 680, 480) := by
  with_unfolding_all decide

/-! ### C6 -/

/-- C6: with no model file present the ONNX session is `none`, and the neural
strategy returns exactly the fallback strategy's result — for any decode
outcome — instead of failing; when the fallback succeeds and perspective
correction succeeds, the whole pipeline still reports success. -/
theorem c6_missing_model_degrades {σ τ μ ι : Type} (decode : Except String τ)
    (inference : σ → τ → Except String μ) (post : τ → μ → μ)
    (fallback : Except String μ) (m : μ) (corr : μ → Except String ι)
    (img : ι) (elapsed : ℚ)
    (hfb : fallback = .ok m) (hcorr : corr m = .ok img) :
    remove_background_optimized decode (none : Option σ) inference post fallback = fallback ∧
    process_image (remove_background_optimized decode (none : Option σ) inference post fallback)
        corr elapsed = (true, "", some img, elapsed) := by
  have h : remove_background_optimized decode (none : Option σ) inference post fallback
      = fallback := by cases decode <;> rfl
  refine ⟨h, ?_⟩
  rw [h, hfb]
  simp [process_image, hcorr]

/-- C6 witness: absent session, succeeding fallback, succeeding correction. -/
theorem c6_witness :
    remove_background_optimized (Except.ok (0 : ℕ)) (none : Option ℕ)
        (fun _ _ => Except.error "no model") (fun _ m => m) (Except.ok (7 : ℕ)) =
      Except.ok 7 ∧
    process_image (remove_background_optimized (Except.ok (0 : ℕ)) (none : Option ℕ)
        (fun _ _ => Except.error "no model") (fun _ m => m) (Except.ok (7 : ℕ)))
        (fun m : ℕ => Except.ok (m + 1)) 2 = (true, "", some 8, 2) :=
  c6_missing_model_degrades (Except.ok 0) (fun _ _ => Except.error "no model")
    (fun _ m => m) (Except.ok 7) 7 (fun m => Except.ok (m + 1)) 8 2 rfl rfl

/-! ### C10 -/

/-- C10: on bytes that decode to a valid image, the ultra-fast
`remove_background` always returns a value: when the dispatched method fails
internally the decoded original image is returned in place of a mask, and an
unrecognized method string silently dispatches to the threshold method. -/
theorem c10_remove_background_total {α : Type} (method : String)
    (grabcut watershed threshold : α → Except String α) (img : α) :
    (∃ r, remove_background (.ok img) method grabcut watershed threshold = .ok r) ∧
    (∀ e, ufDispatch method grabcut watershed threshold img = .error e →
      remove_background (.ok img) method grabcut watershed threshold = .ok img) ∧
    (method ≠ "grabcut" → method ≠ "watershed" →
      ufDispatch method grabcut watershed threshold img = threshold img) := by
  refine ⟨?_, ?_, ?_⟩
  · unfold remove_background
    cases h : ufDispatch method grabcut watershed threshold img with
    | ok r => exact ⟨r, by simp [h]⟩
    | error e => exact ⟨img, by simp [h]⟩
  · intro e he
    unfold remove_background
    simp [he]
  · intro hg hw
    unfold ufDispatch
    rw [if_neg hg, if_neg hw]
    by_cases ht : method = "threshold"
    · rw [if_pos ht]
    · rw [if_neg ht]

/-- C10 witness: an unrecognized method whose threshold fallback fails
internally still yields the decoded original image. -/
theorem c10_witness :
    remove_background (Except.ok (0 : ℕ)) "bogus" (fun _ => Except.error "boom")
        (fun _ => Except.error "boom") (fun _ => Except.error "boom") = Except.ok 0 ∧
    ufDispatch "bogus" (fun _ : ℕ => Except.error "boom") (fun _ => Except.error "boom")
        (fun _ => Except.error "boom") 0 = Except.error "boom" := by
  constructor
  · exact (c10_remove_background_total "bogus" (fun _ => Except.error "boom")
      (fun _ => Except.error "boom") (fun _ => Except.error "boom") 0).2.1 "boom" rfl
  · exact (c10_remove_background_total "bogus" (fun _ => Except.error "boom")
      (fun _ => Except.error "boom") (fun _ => Except.error "boom") 0).2.2
      (by decide) (by decide)

end Perspectra
